import Mathlib

/-!
Verification of the PPM (P6) image decoder in src/main.cpp.

The decoder is the class `ppm` with its constructors and the member function
`ppm::read`.  The embedding models the byte content of an opened file as a
list of bytes, `std::getline` and `operator>>` with the iostream semantics
the source relies on, and `std::vector<unsigned char>` by its observable
element sequence together with a flag recording whether a write through
`operator[]` at an index not below `size()` occurred — undefined behavior in
C++, and in particular never an operation that grows the vector.
-/

/-- Error messages `ppm::read` prints to `std::cout`: the unrecognized
format message of line 145, the header error of lines 161 and 171 (dead
code, see `ppm.readBytes`), and the open failure of line 190. -/
inductive Err where
  | unrecognizedFormat
  | headerFormat
  | openFailure
  deriving DecidableEq

/-- Model of one `std::getline(input, line)` call on a byte stream: the line
is everything before the first newline byte 10, which is consumed; with no
newline left the whole remainder is the line, and at end of stream the call
fails with an empty line (`getline` clears the string before extracting). -/
def getline : List UInt8 → List UInt8 × List UInt8
  | [] => ([], [])
  | c :: cs =>
    if c = 10 then ([], cs)
    else (c :: (getline cs).1, (getline cs).2)

/-- Fuel-indexed comment-skipping loop of lines 148 to 151 of the source:
read a line and, while its first character is the hash byte 35, read
another.  Indexing an empty line with the expression line[0] yields the null
character in C++11, so a blank line ends the loop.  The fuel only serves
termination; `skipComments` instantiates it with the stream length, which is
always enough because each iteration consumes at least one byte. -/
def skipAux : Nat → List UInt8 → List UInt8 × List UInt8
  | 0, bs => getline bs
  | n + 1, bs =>
    if (getline bs).1.headD 0 = 35 then skipAux n (getline bs).2 else getline bs

/-- Comment-skipping loop: returns the first line whose first character is
not the hash byte, together with the rest of the stream. -/
def skipComments (bs : List UInt8) : List UInt8 × List UInt8 :=
  skipAux bs.length bs

/-- State of a `std::stringstream`: the characters not yet extracted and the
fail flag. -/
structure SS where
  rem  : List UInt8
  fail : Bool
  deriving DecidableEq

/-- Default-locale whitespace, skipped by formatted extraction. -/
def isSpace (c : UInt8) : Bool :=
  c = 32 || c = 9 || c = 10 || c = 11 || c = 12 || c = 13

/-- Decimal digit test. -/
def isDigit (c : UInt8) : Bool :=
  48 ≤ c && c ≤ 57

/-- Value of a run of leading decimal digits, with the rest of the input. -/
def parseDigits : List UInt8 → Nat → Nat × List UInt8
  | c :: cs, acc =>
    if isDigit c then parseDigits cs (acc * 10 + (c.toNat - 48)) else (acc, c :: cs)
  | [], acc => (acc, [])

/-- Largest value of a 32-bit unsigned int. -/
def UINT_MAX : Nat := 4294967295

/-- Model of extraction with the right-shift operator into an unsigned int,
as at lines 155, 156 and 168 of the source.  On a failed stream nothing
happens and `cur`, the current value of the target variable, is kept.
Otherwise leading whitespace is skipped and an optional sign and a digit run
are read: no digit means failure with the value set to 0, a magnitude above
`UINT_MAX` means failure with the value set to `UINT_MAX`, and a minus sign
wraps the value modulo 2^32.  With the default exception mask — the source
never changes it — extraction reports failure only through the fail flag
and never throws, so the try and catch blocks around these calls in the
source are dead code. -/
def SS.extractUInt (cur : Nat) (ss : SS) : Nat × SS :=
  if ss.fail then (cur, ss)
  else
    match ss.rem.dropWhile isSpace with
    | [] => (0, ⟨[], true⟩)
    | c :: cs =>
      let neg := c = 45
      let s2 := if c = 45 || c = 43 then cs else c :: cs
      match s2 with
      | [] => (0, ⟨[], true⟩)
      | d :: _ =>
        if isDigit d then
          let pr := parseDigits s2 0
          if pr.1 ≤ UINT_MAX then
            (if neg then (4294967296 - pr.1 % 4294967296) % 4294967296 else pr.1,
             ⟨pr.2, false⟩)
          else (UINT_MAX, ⟨pr.2, true⟩)
        else (0, ⟨s2, true⟩)

/-- Observable state of a `std::vector<unsigned char>`: `data` is the
element sequence below `size()`, and `oob` records that some write through
`operator[]` at an index not below `size()` happened — undefined behavior
in C++, and never an operation that grows the vector. -/
structure CVec where
  data : List UInt8
  oob  : Bool
  deriving DecidableEq

/-- Write through `operator[]`: in bounds the element is replaced; past
`size()` the write is undefined behavior, recorded in `oob`, and the
element sequence is unchanged. -/
def CVec.set (v : CVec) (i : Nat) (x : UInt8) : CVec :=
  if i < v.data.length then { v with data := v.data.set i x }
  else { v with oob := true }

/-- Model of `vector::resize(n)` as used by the sized constructor: grow with
value-initialized zero bytes, or truncate.  By contrast `vector::reserve`,
used by `ppm::read`, changes only the capacity and leaves the element
sequence untouched, so it needs no model beyond a no-op. -/
def CVec.resize (v : CVec) (n : Nat) : CVec :=
  if n ≤ v.data.length then { v with data := v.data.take n }
  else { v with data := v.data ++ List.replicate (n - v.data.length) 0 }

/-- Model of reading one raw byte at lines 181, 183 and 185: one byte is
consumed on success; at end of stream the read fails and the `channel`
variable keeps its previous value. -/
def read1 : List UInt8 → UInt8 → UInt8 × List UInt8
  | [], ch => (ch, [])
  | x :: xs, _ => (x, xs)

/-- Pixel-payload loop of lines 180 to 187: for each pixel index, three
bytes are read and written through `operator[]` at that index of the red,
green and blue vectors, in that order.  The `channel` variable is declared
uninitialized in the source; it is stored unread only when the very first
byte read fails, in which case the write is out of bounds anyway, so its
initial value is modeled as 0. -/
def payload : Nat → Nat → List UInt8 → UInt8 → CVec → CVec → CVec → CVec × CVec × CVec
  | 0, _, _, _, vr, vg, vb => (vr, vg, vb)
  | n + 1, i, s, ch, vr, vg, vb =>
    let a1 := read1 s ch
    let a2 := read1 a1.2 a1.1
    let a3 := read1 a2.2 a2.1
    payload n (i + 1) a3.2 a3.1 (vr.set i a1.1) (vg.set i a2.1) (vb.set i a3.1)

/-- The `ppm` class: private dimension copies `n_r` and `n_c`, the three
channel vectors `r`, `g`, `b`, the dimensions, the maximum color value and
the pixel count, all unsigned ints in the source. -/
structure ppm where
  n_r : Nat
  n_c : Nat
  r : CVec
  g : CVec
  b : CVec
  height : Nat
  width : Nat
  max_color_val : Nat
  size : Nat
  deriving DecidableEq

/-- Member function of the class setting the defaults, lines 91 to 95. -/
def ppm.init (p : ppm) : ppm :=
  { p with width := 0, height := 0, max_color_val := 255 }

/-- Default constructor, lines 98 to 100: the vector members
default-construct empty and `ppm.init` sets the three header fields.
`n_r`, `n_c` and `size` are left uninitialized by the source and no code
path reads them before assigning them; they are modeled as 0. -/
def ppm.empty : ppm :=
  ppm.init
    { n_r := 0, n_c := 0, r := ⟨[], false⟩, g := ⟨[], false⟩, b := ⟨[], false⟩,
      height := 0, width := 0, max_color_val := 0, size := 0 }

/-- Sized constructor, lines 117 to 129: set the dimensions and resize the
three channel vectors to `width * height` zero bytes.  The members are
unsigned ints, so the product is taken modulo 2^32. -/
def ppm.ofSize (w h : Nat) : ppm :=
  let p := ppm.init ppm.empty
  let p1 := { p with width := w, height := h }
  let p2 := { p1 with n_r := p1.height, n_c := p1.width }
  let sz := p2.width * p2.height % 4294967296
  let p3 := { p2 with size := sz }
  { p3 with r := p3.r.resize sz, g := p3.g.resize sz, b := p3.b.resize sz }

/-- Body of `ppm::read`, lines 140 to 188, run on an opened stream holding
`bytes` and updating `p`: check the magic line against P6, skip comment
lines, extract width and height from the next line, extract the maximum
color value from the line after, then run the pixel loop over
`width * height` (unsigned arithmetic) indices.  The returned list holds
the error messages printed, and the Bool records whether the early return
of line 146 was taken.  The try and catch blocks of lines 154 to 172 are
dead code (see `SS.extractUInt`), so no header error is ever printed and a
failed header extraction falls through.  Lines 175 to 177 call
`vector::reserve`, which only changes capacity, so the channel vectors
still have size 0 when the pixel loop writes through `operator[]`. -/
def ppm.readBytes (bytes : List UInt8) (p : ppm) : ppm × List Err × Bool :=
  let g1 := getline bytes
  if g1.1 = [80, 54] then
    let sc := skipComments g1.2
    let ew := SS.extractUInt p.width ⟨sc.1, false⟩
    let eh := SS.extractUInt p.height ew.2
    let g2 := getline sc.2
    let em := SS.extractUInt p.max_color_val ⟨g2.1, false⟩
    let sz := ew.1 * eh.1 % 4294967296
    let pix := payload sz 0 g2.2 0 p.r p.g p.b
    ({ p with width := ew.1, height := eh.1, n_r := eh.1, n_c := ew.1,
              max_color_val := em.1, size := sz,
              r := pix.1, g := pix.2.1, b := pix.2.2 }, [], false)
  else
    (p, [Err.unrecognizedFormat], true)

/-- Whole of `ppm::read` including stream open and close, with `none` for a
file that fails to open.  The Nat counts releases of the stream handle: on
the early return the explicit close of line 192 is skipped and the ifstream
destructor releases the handle at scope exit; otherwise line 192 releases
it and the destructor then finds the stream already closed; when the open
failed no handle was acquired, and neither the close call nor the
destructor releases anything. -/
def ppm.readFile (file : Option (List UInt8)) (p : ppm) : ppm × List Err × Nat :=
  match file with
  | none => (p, [Err.openFailure], 0)
  | some bytes =>
    let out := ppm.readBytes bytes p
    let closedByCall := if out.2.2 then 0 else 1
    let closedByDtor := if out.2.2 then 1 else 0
    (out.1, out.2.1, closedByCall + closedByDtor)

/-- Comment line as allowed between the magic and dimensions lines: a hash
byte, a newline-free body, and the terminating newline. -/
def commentLine (c : List UInt8) : List UInt8 :=
  35 :: (c ++ [10])

/-- Concatenation of a list of byte lists. -/
def joinAll : List (List UInt8) → List UInt8
  | [] => []
  | l :: ls => l ++ joinAll ls

/-- Fixture of the spec: header P6, newline, the dimensions 2 and 1,
newline, 255, newline, then the six payload bytes 10 20 30 200 210 220. -/
def fixtureBytes : List UInt8 :=
  [80, 54, 10, 50, 32, 49, 10, 50, 53, 53, 10, 10, 20, 30, 200, 210, 220]

/-- Input with an unparseable dimensions line: P6, newline, the letters
abc, newline, 255, newline. -/
def badDimsBytes : List UInt8 :=
  [80, 54, 10, 97, 98, 99, 10, 50, 53, 53, 10]

/-- Truncated fixture: the 2 by 1 header of `fixtureBytes` but only the
first three of the six payload bytes. -/
def truncatedBytes : List UInt8 :=
  [80, 54, 10, 50, 32, 49, 10, 50, 53, 53, 10, 10, 20, 30]

/-- Input whose first line is P3 rather than P6. -/
def badMagicBytes : List UInt8 :=
  [80, 51, 10, 49, 32, 49, 10, 50, 53, 53, 10]

/-- Consuming a line never grows the stream. -/
theorem getline_snd_le (bs : List UInt8) : (getline bs).2.length ≤ bs.length := by
  induction bs with
  | nil => simp [getline]
  | cons c cs ih =>
    simp only [getline]
    split
    · simp
    · simpa using Nat.le_trans ih (Nat.le_succ _)

/-- Consuming a line from a nonempty stream strictly shrinks it. -/
theorem getline_snd_lt (c : UInt8) (cs : List UInt8) :
    (getline (c :: cs)).2.length < (c :: cs).length := by
  simp only [getline]
  split
  · simp
  · have h := getline_snd_le cs
    simp only [List.length_cons]
    omega

/-- A line whose first character is the hash byte is nonempty, so the stream
it came from was nonempty and strictly shrank. -/
theorem getline_snd_lt_of_headD (bs : List UInt8)
    (h : (getline bs).1.headD 0 = 35) : (getline bs).2.length < bs.length := by
  cases bs with
  | nil => revert h; decide
  | cons c cs => exact getline_snd_lt c cs

/-- The comment loop on an empty stream yields the empty line. -/
theorem skipAux_nil (n : Nat) : skipAux n [] = ([], []) := by
  cases n <;> rfl

/-- The comment loop result does not depend on the fuel, as long as the fuel
covers the stream length. -/
theorem skipAux_congr (n : Nat) :
    ∀ (m : Nat) (bs : List UInt8), bs.length ≤ n → bs.length ≤ m →
      skipAux n bs = skipAux m bs := by
  induction n with
  | zero =>
    intro m bs hn _
    have hbs : bs = [] := List.eq_nil_of_length_eq_zero (Nat.le_zero.mp hn)
    subst hbs
    rw [skipAux_nil, skipAux_nil]
  | succ n ih =>
    intro m bs hn hm
    cases m with
    | zero =>
      have hbs : bs = [] := List.eq_nil_of_length_eq_zero (Nat.le_zero.mp hm)
      subst hbs
      rw [skipAux_nil, skipAux_nil]
    | succ m =>
      simp only [skipAux]
      by_cases h : (getline bs).1.headD 0 = 35
      · rw [if_pos h, if_pos h]
        have hlt := getline_snd_lt_of_headD bs h
        exact ih _ _ (by omega) (by omega)
      · rw [if_neg h, if_neg h]

/-- Unfolding equation of the comment-skipping loop. -/
theorem skipComments_eq (bs : List UInt8) :
    skipComments bs =
      if (getline bs).1.headD 0 = 35 then skipComments (getline bs).2
      else getline bs := by
  cases bs with
  | nil =>
    rw [show skipComments [] = ([], []) from rfl]
    simp [getline, skipComments, skipAux]
  | cons c cs =>
    simp only [skipComments, List.length_cons, skipAux]
    by_cases h : (getline (c :: cs)).1.headD 0 = 35
    · rw [if_pos h, if_pos h]
      have hlt := getline_snd_lt_of_headD (c :: cs) h
      exact skipAux_congr cs.length (getline (c :: cs)).2.length _
        (by simpa using Nat.lt_succ_iff.mp (by simpa using hlt)) (Nat.le_refl _)
    · rw [if_neg h, if_neg h]

/-- A line not containing a newline, followed by a newline, is read back
verbatim by `getline`. -/
theorem getline_append (l s : List UInt8) (h : (10 : UInt8) ∉ l) :
    getline (l ++ 10 :: s) = (l, s) := by
  induction l with
  | nil => rfl
  | cons c cs ih =>
    have hc : ¬ (c = 10) := by
      intro e
      subst e
      exact h (List.mem_cons_self _ _)
    have hrest : (10 : UInt8) ∉ cs := fun m => h (List.mem_cons_of_mem _ m)
    simp only [List.cons_append, getline]
    rw [if_neg hc, show cs.append (10 :: s) = cs ++ 10 :: s from rfl, ih hrest]

/-- The comment loop discards one leading comment line. -/
theorem skipComments_commentLine (c : List UInt8) (hc : (10 : UInt8) ∉ c)
    (tail : List UInt8) :
    skipComments (commentLine c ++ tail) = skipComments tail := by
  have hg : getline (commentLine c ++ tail) = (35 :: c, tail) := by
    have he : commentLine c ++ tail = (35 :: c) ++ (10 :: tail) := by
      simp [commentLine]
    rw [he]
    refine getline_append (35 :: c) tail ?_
    intro hm
    rcases List.mem_cons.mp hm with h35 | hmem
    · exact absurd h35 (by decide)
    · exact hc hmem
  rw [skipComments_eq, hg]
  simp

/-- The comment loop discards any run of leading comment lines. -/
theorem skipComments_joinAll (cs : List (List UInt8))
    (h : ∀ c ∈ cs, (10 : UInt8) ∉ c) (tail : List UInt8) :
    skipComments (joinAll (cs.map commentLine) ++ tail) = skipComments tail := by
  induction cs with
  | nil => simp [joinAll]
  | cons c cs ih =>
    have hc : (10 : UInt8) ∉ c := h c (List.mem_cons_self c cs)
    have hcs : ∀ x ∈ cs, (10 : UInt8) ∉ x := fun x hx => h x (List.mem_cons_of_mem c hx)
    simp only [List.map_cons, joinAll]
    rw [List.append_assoc, skipComments_commentLine c hc _]
    exact ih hcs

/-- Resizing an empty vector yields zero bytes. -/
theorem resize_empty (n : Nat) :
    CVec.resize ⟨[], false⟩ n = ⟨List.replicate n 0, false⟩ := by
  simp only [CVec.resize]
  rcases Nat.eq_zero_or_pos n with h0 | hpos
  · subst h0
    simp
  · rw [if_neg (by simp; omega)]
    simp

/-- C1 (code bug, evaluation at the failing input): decoding the
well-formed 2 by 1 fixture completes with no error message, yet the three
channel sequences have length 0, not width times height, which is 2.
Lines 175 to 177 call `vector::reserve` — whose own comments say resize —
so the vectors never grow, and the pixel loop wrote through `operator[]`
past `size()`. -/
theorem c1_decode_leaves_channels_empty :
    (ppm.readBytes fixtureBytes ppm.empty).2.1 = []
      ∧ (ppm.readBytes fixtureBytes ppm.empty).2.2 = false
      ∧ (ppm.readBytes fixtureBytes ppm.empty).1.width = 2
      ∧ (ppm.readBytes fixtureBytes ppm.empty).1.height = 1
      ∧ (ppm.readBytes fixtureBytes ppm.empty).1.r.data.length = 0
      ∧ (ppm.readBytes fixtureBytes ppm.empty).1.g.data.length = 0
      ∧ (ppm.readBytes fixtureBytes ppm.empty).1.b.data.length = 0
      ∧ (ppm.readBytes fixtureBytes ppm.empty).1.r.oob = true := by
  decide

/-- C2 (code bug, evaluation at the failing input): decoding the fixture
does not yield red 10 200, green 20 210, blue 30 220 — the channel
sequences stay empty, because after `vector::reserve` every pixel write
went past `size()`. -/
theorem c2_fixture_channels_not_stored :
    (ppm.readBytes fixtureBytes ppm.empty).2.1 = []
      ∧ ¬ ((ppm.readBytes fixtureBytes ppm.empty).1.r.data = [10, 200])
      ∧ ¬ ((ppm.readBytes fixtureBytes ppm.empty).1.g.data = [20, 210])
      ∧ ¬ ((ppm.readBytes fixtureBytes ppm.empty).1.b.data = [30, 220])
      ∧ (ppm.readBytes fixtureBytes ppm.empty).1.r.data = []
      ∧ (ppm.readBytes fixtureBytes ppm.empty).1.g.data = []
      ∧ (ppm.readBytes fixtureBytes ppm.empty).1.b.data = [] := by
  decide

/-- C3 (code bug, evaluation at the failing input): on a dimensions line
that is not parseable — the letters abc — decode prints no error message,
takes no early return, and runs to completion with width and height
silently set to 0: stream extraction never throws, so the catch blocks of
lines 160 to 172 are dead code. -/
theorem c3_bad_dimensions_silently_continue :
    (ppm.readBytes badDimsBytes ppm.empty).2.1 = []
      ∧ (ppm.readBytes badDimsBytes ppm.empty).2.2 = false
      ∧ (ppm.readBytes badDimsBytes ppm.empty).1.width = 0
      ∧ (ppm.readBytes badDimsBytes ppm.empty).1.height = 0
      ∧ (ppm.readBytes badDimsBytes ppm.empty).1.max_color_val = 255
      ∧ (ppm.readBytes badDimsBytes ppm.empty).1.size = 0 := by
  decide

/-- C4 (code bug, evaluation at the failing input): on a payload holding
three of the six bytes the 2 by 1 header announces, decode indeed prints
no error, but it does not store the available bytes either: the channel
sequences stay empty and the out-of-bounds flag is set, because
`vector::reserve` never grew the vectors and every pixel write went past
`size()`. -/
theorem c4_truncated_payload_not_stored :
    (ppm.readBytes truncatedBytes ppm.empty).2.1 = []
      ∧ (ppm.readBytes truncatedBytes ppm.empty).1.size = 2
      ∧ (ppm.readBytes truncatedBytes ppm.empty).1.r.data = []
      ∧ (ppm.readBytes truncatedBytes ppm.empty).1.g.data = []
      ∧ (ppm.readBytes truncatedBytes ppm.empty).1.b.data = []
      ∧ (ppm.readBytes truncatedBytes ppm.empty).1.r.oob = true := by
  decide

/-- C5: an input whose first line is not exactly P6 makes decode print the
unrecognized-format error and return early, leaving the buffer exactly as
it was — decoding from the default state leaves the default state. -/
theorem c5_magic_rejection (bytes : List UInt8) (p : ppm)
    (h : ¬ ((getline bytes).1 = [80, 54])) :
    ppm.readBytes bytes p = (p, [Err.unrecognizedFormat], true) := by
  simp only [ppm.readBytes]
  rw [if_neg h]

/-- Witness for `c5_magic_rejection` at an input starting with P3. -/
theorem c5_magic_rejection_witness :
    ¬ ((getline badMagicBytes).1 = [80, 54])
      ∧ ppm.readBytes badMagicBytes ppm.empty
          = (ppm.empty, [Err.unrecognizedFormat], true) :=
  ⟨by decide, c5_magic_rejection badMagicBytes ppm.empty (by decide)⟩

/-- C6: inserting comment lines — a hash byte, a newline-free body and a
newline — between the magic line and the rest of the input leaves the
decode result unchanged: same buffer fields, same messages. -/
theorem c6_comment_lines_ignored (cs : List (List UInt8)) (rest : List UInt8)
    (p : ppm) (hcs : ∀ c ∈ cs, (10 : UInt8) ∉ c) :
    ppm.readBytes (80 :: 54 :: 10 :: (joinAll (cs.map commentLine) ++ rest)) p
      = ppm.readBytes (80 :: 54 :: 10 :: rest) p := by
  have h1 : getline (80 :: 54 :: 10 :: (joinAll (cs.map commentLine) ++ rest))
      = ([80, 54], joinAll (cs.map commentLine) ++ rest) := rfl
  have h2 : getline (80 :: 54 :: 10 :: rest) = ([80, 54], rest) := rfl
  simp only [ppm.readBytes, h1, h2]
  rw [skipComments_joinAll cs hcs rest]

/-- Witness for `c6_comment_lines_ignored`: one comment line with a
one-letter body inserted before the dimensions line 1 1. -/
theorem c6_comment_lines_ignored_witness :
    (∀ c ∈ [[(99 : UInt8)]], (10 : UInt8) ∉ c)
      ∧ ppm.readBytes
            (80 :: 54 :: 10 ::
              (joinAll (List.map commentLine [[99]]) ++ [49, 32, 49, 10, 48, 10]))
            ppm.empty
          = ppm.readBytes (80 :: 54 :: 10 :: [49, 32, 49, 10, 48, 10]) ppm.empty :=
  ⟨by decide,
   c6_comment_lines_ignored [[99]] [49, 32, 49, 10, 48, 10] ppm.empty (by decide)⟩

/-- C7: the stream handle is released exactly once whenever it was acquired
— that is, whenever the open succeeded — on the success path and on the
early-return path alike, while an open failure acquires nothing and
releases nothing. -/
theorem c7_handle_released_once (file : Option (List UInt8)) (p : ppm) :
    (ppm.readFile file p).2.2 = if file.isSome then 1 else 0 := by
  cases file with
  | none => rfl
  | some bytes =>
    simp only [ppm.readFile]
    cases h : (ppm.readBytes bytes p).2.2 <;> simp [h]

/-- C8: decoding is deterministic in the stream content: two runs over
independent stream instances holding the same bytes produce identical
buffers, field by field. -/
theorem c8_same_bytes_same_buffer (b1 b2 : List UInt8) (p : ppm)
    (h : b1 = b2) :
    (ppm.readFile (some b1) p).1 = (ppm.readFile (some b2) p).1 := by
  rw [h]

/-- Witness for `c8_same_bytes_same_buffer` at the fixture bytes. -/
theorem c8_same_bytes_same_buffer_witness :
    fixtureBytes = fixtureBytes
      ∧ (ppm.readFile (some fixtureBytes) ppm.empty).1
          = (ppm.readFile (some fixtureBytes) ppm.empty).1 :=
  ⟨rfl, c8_same_bytes_same_buffer fixtureBytes fixtureBytes ppm.empty rfl⟩

/-- C9 counterexample: at width and height 65536 the unsigned product
wraps to 0 modulo 2^32, so the constructed channel sequences have length
0, not 65536 times 65536 as the claim states. -/
theorem c9_overflow_counterexample :
    ¬ ((ppm.ofSize 65536 65536).r.data.length = 65536 * 65536) := by
  decide

/-- C9 amended: whenever the product of width and height does not overflow
a 32-bit unsigned int, the sized constructor yields exactly the claimed
buffer: the given dimensions, maximum color value 255, and three channel
sequences of length width times height holding only zero bytes. -/
theorem c9_ofSize_zero_filled (w h : Nat) (hwh : w * h < 4294967296) :
    (ppm.ofSize w h).width = w ∧ (ppm.ofSize w h).height = h
      ∧ (ppm.ofSize w h).max_color_val = 255
      ∧ (ppm.ofSize w h).r.data = List.replicate (w * h) 0
      ∧ (ppm.ofSize w h).g.data = List.replicate (w * h) 0
      ∧ (ppm.ofSize w h).b.data = List.replicate (w * h) 0 := by
  have hm : w * h % 4294967296 = w * h := Nat.mod_eq_of_lt hwh
  have hr : (ppm.ofSize w h).r = ⟨List.replicate (w * h) 0, false⟩ := by
    show CVec.resize ⟨[], false⟩ (w * h % 4294967296) = _
    rw [hm, resize_empty]
  have hg : (ppm.ofSize w h).g = ⟨List.replicate (w * h) 0, false⟩ := by
    show CVec.resize ⟨[], false⟩ (w * h % 4294967296) = _
    rw [hm, resize_empty]
  have hb : (ppm.ofSize w h).b = ⟨List.replicate (w * h) 0, false⟩ := by
    show CVec.resize ⟨[], false⟩ (w * h % 4294967296) = _
    rw [hm, resize_empty]
  exact ⟨rfl, rfl, rfl, by rw [hr], by rw [hg], by rw [hb]⟩

/-- Witness for `c9_ofSize_zero_filled` at width 2 and height 3. -/
theorem c9_ofSize_zero_filled_witness :
    2 * 3 < 4294967296
      ∧ ((ppm.ofSize 2 3).width = 2 ∧ (ppm.ofSize 2 3).height = 3
          ∧ (ppm.ofSize 2 3).max_color_val = 255
          ∧ (ppm.ofSize 2 3).r.data = List.replicate (2 * 3) 0
          ∧ (ppm.ofSize 2 3).g.data = List.replicate (2 * 3) 0
          ∧ (ppm.ofSize 2 3).b.data = List.replicate (2 * 3) 0) :=
  ⟨by decide, c9_ofSize_zero_filled 2 3 (by decide)⟩

/-- C10: when an empty line follows the magic token, the comment loop
stops at it and hands it over as the dimensions line — blank lines are
not skipped like comments — and decode proceeds without printing any
error or returning early, with width and height 0 from the failed parse
of the empty line. -/
theorem c10_blank_line_is_dimensions_line (rest : List UInt8) :
    skipComments (10 :: rest) = ([], rest)
      ∧ (ppm.readBytes (80 :: 54 :: 10 :: 10 :: rest) ppm.empty).2.1 = []
      ∧ (ppm.readBytes (80 :: 54 :: 10 :: 10 :: rest) ppm.empty).2.2 = false
      ∧ (ppm.readBytes (80 :: 54 :: 10 :: 10 :: rest) ppm.empty).1.width = 0
      ∧ (ppm.readBytes (80 :: 54 :: 10 :: 10 :: rest) ppm.empty).1.height = 0 :=
  ⟨rfl, rfl, rfl, rfl, rfl⟩
